import Mathlib

/-!
Verification development for the `sdamgia` scraping client
(`src/sdamgia/__main__.py`).

The Python source is shallowly embedded: HTML documents are modelled as a
rose tree of element/text nodes (the fragment of the BeautifulSoup API the
client uses — `find`, `find_all` by tag name and CSS class, attribute
access, `.text`, `get_text(strip=True)`, in-place mutation of `src`
attributes and `replace_with` — is reimplemented as pure tree functions),
Python string methods used by the client (`in`, `replace`, `split`,
`lstrip`, `strip`, `isdigit`, `int(...)`) are reimplemented with Python's
semantics over `List Char`, and exceptions are modelled with
`Except PyErr`.  Every definition is computable and structurally
recursive, so concrete runs evaluate by `decide` / `rfl`.
-/

deriving instance DecidableEq for Except

/-- Python exception classes that the embedded code can raise or catch. -/
inductive PyErr where
  /-- `KeyError`: raised by `tag["attr"]` when the attribute is absent. -/
  | keyError
  /-- `AttributeError`: raised by attribute access on `None`
  (e.g. `None.find_all(...)`). -/
  | attributeError
  /-- `IndexError`: raised by out-of-range indexing such as `xs[1]` or
  `xs[-1]` on a too-short list. -/
  | indexError
  /-- `ValueError`: raised by `int(s)` on a non-numeric string. -/
  | valueError
  /-- `TypeError`: raised when `None` flows into an operation requiring a
  value (e.g. fetching a `None` url). -/
  | typeError
  /-- `RuntimeError`: raised explicitly by
  `raise RuntimeError("Problem block not found")`. -/
  | runtimeError
  /-- Marker for exhaustion of the fuel that bounds the source's
  unbounded `while True` pagination loops in this embedding. -/
  | noFuel
deriving Repr, DecidableEq

/-! ## Python string primitives

Python `str` operations are modelled over `List Char`; `String` values are
converted at the boundaries (`String.data` / `String.mk`). -/

/-- Python whitespace as used by `str.split()` / `str.strip()` (the ASCII
fragment; the scraped strings contain no exotic Unicode spaces). -/
def pySpace (c : Char) : Bool :=
  c = ' ' || c = '\t' || c = '\n' || c = '\r' || c = '\x0b' || c = '\x0c'

/-- Worker for `pyReplace`: `skip` counts characters still to drop because
they belonged to an already-replaced occurrence of the pattern (Python's
`str.replace` substitutes leftmost non-overlapping occurrences). -/
def replaceAux (pat rep : List Char) : Nat → List Char → List Char
  | _, [] => []
  | skip+1, _ :: cs => replaceAux pat rep skip cs
  | 0, c :: cs =>
    if pat ≠ [] ∧ pat.isPrefixOf (c :: cs) then
      rep ++ replaceAux pat rep (pat.length - 1) cs
    else
      c :: replaceAux pat rep 0 cs

/-- Python `s.replace(pat, rep)` for a non-empty pattern. -/
def pyReplace (pat rep l : List Char) : List Char := replaceAux pat rep 0 l

/-- Python `s.replace(pat, rep)` on `String`. -/
def pyReplaceS (pat rep s : String) : String := ⟨pyReplace pat.data rep.data s.data⟩

/-- Python substring test `pat in s` (for non-empty `pat`; the client only
tests non-empty literals). -/
def pyInSub (pat : List Char) : List Char → Bool
  | [] => pat.isEmpty
  | c :: cs => pat.isPrefixOf (c :: cs) || pyInSub pat cs

/-- Python `pat in s` on `String`. -/
def pyInStr (pat s : String) : Bool := pyInSub pat.data s.data

/-- Python `s.startswith(pat)` / `s.find(pat) == 0`. -/
def pyStartsWith (pat s : String) : Bool := pat.data.isPrefixOf s.data

/-- Worker for `pySplitOn`, with the same skip discipline as `replaceAux`;
`acc` holds the current piece reversed. -/
def splitOnAux (pat : List Char) : Nat → List Char → List Char → List (List Char)
  | _, acc, [] => [acc.reverse]
  | skip+1, acc, _ :: cs => splitOnAux pat skip acc cs
  | 0, acc, c :: cs =>
    if pat ≠ [] ∧ pat.isPrefixOf (c :: cs) then
      acc.reverse :: splitOnAux pat (pat.length - 1) [] cs
    else
      splitOnAux pat 0 (c :: acc) cs

/-- Python `s.split(pat)` for a non-empty separator: every occurrence
separates, empty pieces are kept. -/
def pySplitOn (pat l : List Char) : List (List Char) := splitOnAux pat 0 [] l

/-- Python `s.split(pat)` on `String`. -/
def pySplitOnS (pat s : String) : List String :=
  (pySplitOn pat.data s.data).map String.mk

/-- Worker for `pySplitWs`; `acc` holds the current word reversed. -/
def splitWsAux : List Char → List Char → List (List Char)
  | acc, [] => if acc.isEmpty then [] else [acc.reverse]
  | acc, c :: cs =>
    if pySpace c then
      if acc.isEmpty then splitWsAux [] cs else acc.reverse :: splitWsAux [] cs
    else
      splitWsAux (c :: acc) cs

/-- Python `s.split()` (no argument): split on whitespace runs, no empty
pieces. -/
def pySplitWs (s : String) : List String := (splitWsAux [] s.data).map String.mk

/-- Python `s.strip()`: remove leading and trailing whitespace. -/
def pyStrip (l : List Char) : List Char :=
  ((l.dropWhile pySpace).reverse.dropWhile pySpace).reverse

/-- Python `s.strip()` on `String`. -/
def pyStripS (s : String) : String := ⟨pyStrip s.data⟩

/-- Python `s.lstrip(chars)`: remove leading characters drawn from the
character SET of `chars` (not the literal prefix `chars`). -/
def pyLstripSet (chars l : List Char) : List Char :=
  l.dropWhile (fun c => chars.contains c)

/-- Python `s.lstrip(chars)` on `String`. -/
def pyLstripSetS (chars s : String) : String := ⟨pyLstripSet chars.data s.data⟩

/-- Python `s.isdigit()` (ASCII digits; the scraped ids are ASCII). -/
def pyIsDigit (s : String) : Bool := !s.data.isEmpty && s.data.all Char.isDigit

/-- Value of a string of decimal digits (total helper). -/
def digitsToNat (l : List Char) : Nat :=
  l.foldl (fun a c => a * 10 + (c.toNat - 48)) 0

/-- Python `int(s)`: optional surrounding whitespace, optional sign, then
decimal digits; `none` models `ValueError`. -/
def pyInt (s : String) : Option Int :=
  match pyStrip s.data with
  | '-' :: ds => if !ds.isEmpty && ds.all Char.isDigit then some (-(digitsToNat ds : Int)) else none
  | '+' :: ds => if !ds.isEmpty && ds.all Char.isDigit then some (digitsToNat ds : Int) else none
  | ds => if !ds.isEmpty && ds.all Char.isDigit then some (digitsToNat ds : Int) else none

/-- Decimal digits of a natural number (fuel-structural so that it reduces
by `rfl`; the fuel is always sufficient at `natDigits`). -/
def natDigitsAux : Nat → Nat → List Char
  | 0, _ => []
  | fuel+1, n =>
    if n < 10 then [Char.ofNat (48 + n)]
    else natDigitsAux fuel (n / 10) ++ [Char.ofNat (48 + n % 10)]

/-- Decimal representation of a natural number. -/
def natDigits (n : Nat) : List Char := natDigitsAux (n + 1) n

/-- Python `str(i)` for an `int`. -/
def pyStrOfInt (i : Int) : String :=
  match i with
  | .ofNat n => ⟨natDigits n⟩
  | .negSucc n => ⟨'-' :: natDigits (n + 1)⟩

/-! ## HTML document model

The client sees HTML only through BeautifulSoup queries.  A parsed page is
a rose tree of element and text nodes; `NodeList` is a bespoke list type
so that all tree functions are mutual structural recursions (and hence
reduce inside `decide`/`rfl`). -/

mutual
/-- One HTML node: a text run, or an element with a tag name, the
(multi-valued) `class` attribute, the remaining attributes and children. -/
inductive Node where
  | text : String → Node
  | elem : (name : String) → (classes : List String) →
      (attrs : List (String × String)) → (children : NodeList) → Node
deriving Repr, DecidableEq
/-- Children of an element / top-level nodes of a document. -/
inductive NodeList where
  | nil : NodeList
  | cons : Node → NodeList → NodeList
deriving Repr, DecidableEq
end

/-- Matcher for bs4 `find(name)`: element with the given tag name. -/
def isTagName (nm : String) : Node → Bool
  | .elem n _ _ _ => n == nm
  | .text _ => false

/-- Matcher for bs4 `find(name, class_=cls)`: element with the given tag
name whose `class` attribute contains `cls`. -/
def isTagClass (nm cls : String) : Node → Bool
  | .elem n cs _ _ => n == nm && cs.contains cls
  | .text _ => false

mutual
/-- All nodes of the subtree rooted at a node (the node itself included)
matching `p`, in document (preorder) order. -/
def Node.findAllSelf (p : Node → Bool) : Node → List Node
  | .text s => if p (.text s) then [.text s] else []
  | .elem n cs as ch =>
    (if p (.elem n cs as ch) then [.elem n cs as ch] else []) ++ NodeList.findAll p ch
/-- All matching nodes below a node list, in document order. -/
def NodeList.findAll (p : Node → Bool) : NodeList → List Node
  | .nil => []
  | .cons c cs => Node.findAllSelf p c ++ NodeList.findAll p cs
end

/-- bs4 `tag.find_all(p)`: matching descendants of a node (self excluded). -/
def Node.findAllD (p : Node → Bool) : Node → List Node
  | .text _ => []
  | .elem _ _ _ ch => NodeList.findAll p ch

/-- bs4 `tag.find(p)`: first matching descendant, or `None`. -/
def Node.findFirst (p : Node → Bool) (n : Node) : Option Node :=
  (Node.findAllD p n).head?

/-- bs4 `soup.find(p)` on a whole document. -/
def NodeList.findFirst (p : Node → Bool) (l : NodeList) : Option Node :=
  (NodeList.findAll p l).head?

/-- bs4 `tag.get(key)`: attribute lookup returning `None` when absent
(the `class` attribute is held separately and never read via `get` by the
client). -/
def getAttr (key : String) : Node → Option String
  | .text _ => none
  | .elem _ _ as _ => (as.find? (fun kv => kv.1 == key)).map (·.2)

/-- Embedding of the in-place `tag[key] = v`: replace the value of the
first binding of `key`, or append the binding if absent. -/
def setAttrList (key v : String) : List (String × String) → List (String × String)
  | [] => [(key, v)]
  | kv :: rest =>
    if kv.1 == key then (key, v) :: rest else kv :: setAttrList key v rest

mutual
/-- bs4 `tag.text` / `get_text()`: concatenation of all descendant text
runs, in document order. -/
def Node.getText : Node → String
  | .text s => s
  | .elem _ _ _ ch => NodeList.getText ch
/-- Text of a node list. -/
def NodeList.getText : NodeList → String
  | .nil => ""
  | .cons c cs => Node.getText c ++ NodeList.getText cs
end

mutual
/-- bs4 `get_text(strip=True)`: each text run is stripped and the results
are concatenated (bs4 joins the stripped strings with an empty
separator). -/
def Node.getTextStrip : Node → String
  | .text s => pyStripS s
  | .elem _ _ _ ch => NodeList.getTextStrip ch
/-- Stripped text of a node list. -/
def NodeList.getTextStrip : NodeList → String
  | .nil => ""
  | .cons c cs => Node.getTextStrip c ++ NodeList.getTextStrip cs
end

/-- Serialization of an attribute list. -/
def attrsToHtml : List (String × String) → String
  | [] => ""
  | (k, v) :: rest => " " ++ k ++ "=\"" ++ v ++ "\"" ++ attrsToHtml rest

/-- Serialization of the `class` attribute. -/
def classesToHtml : List String → String
  | [] => ""
  | c :: cs => " class=\"" ++ String.intercalate " " (c :: cs) ++ "\""

mutual
/-- Python `str(tag)`: the HTML serialization of the subtree (attribute
escaping and void-element forms are not modelled; both sides of every
theorem go through this one serializer). -/
def Node.toHtml : Node → String
  | .text s => s
  | .elem n cs as ch =>
    "<" ++ n ++ classesToHtml cs ++ attrsToHtml as ++ ">" ++
      NodeList.toHtml ch ++ "</" ++ n ++ ">"
/-- Serialization of a node list. -/
def NodeList.toHtml : NodeList → String
  | .nil => ""
  | .cons c cs => Node.toHtml c ++ NodeList.toHtml cs
end

/-! ## Record types of the client

These records live in `sdamgia/types.py`, which is not part of the
provided sources; they are passive containers whose shape is fully
determined by the spec's data model (§3) and the constructor calls in
`__main__.py`. -/

/-- Modelled from the spec: exam-type enumeration (`GitType` in the
source's import list; the types module itself is absent from `src/`), with
the two variants EGE/OGE named in the spec, rendering into the base url as
its lowercase name. -/
inductive GitType where
  | ege
  | oge
deriving Repr, DecidableEq

/-- Rendering of a `GitType` inside f-strings (`f"...-{self.gia_type}..."`). -/
def GitType.render : GitType → String
  | .ege => "ege"
  | .oge => "oge"

/-- Modelled from the spec: one of the {condition, solution}
sub-documents.  `image_links` is a Python list that may contain `None`
(an `img` with no `src` contributes `img.get("src") = None`), hence
`Option String` entries. -/
structure ProblemPart where
  text : String
  html : String
  image_links : List (Option String)
deriving Repr, DecidableEq

/-- Modelled from the spec: the record built by `get_problem_by_id`. -/
structure Problem where
  gia_type : GitType
  subject : Option String
  problem_id : Int
  condition : Option ProblemPart
  solution : Option ProblemPart
  answer : String
  topic_id : Option Int
  analogs : List Int
deriving Repr, DecidableEq

/-- The mutable scope fields of the `SdamGIA` client object. -/
structure ClientState where
  gia_type : GitType
  subject : Option String
deriving Repr, DecidableEq

/-- `SdamGIA.BASE_DOMAIN`. -/
def BASE_DOMAIN : String := "sdamgia.ru"

/-- Rendering of `self.subject` inside the f-string (Python renders the
value `None` as the string `"None"`). -/
def subjectRender : Option String → String
  | some s => s
  | none => "None"

/-- `SdamGIA.base_url`:
`f"https://{self.subject}-{self.gia_type}.{self.BASE_DOMAIN}"`. -/
def base_url (st : ClientState) : String :=
  "https://" ++ subjectRender st.subject ++ "-" ++ st.gia_type.render ++ "." ++ BASE_DOMAIN

/-- Model of `urllib.parse.urljoin(base, rel)` restricted to the shapes
that occur here: the base is always the client's `base_url` (scheme and
authority, no path), and relative references are resolved against it;
absolute references (with scheme) replace the base; protocol-relative
references keep the scheme. -/
def urljoin (base rel : String) : String :=
  if rel = "" then base
  else if pyStartsWith "https://" rel || pyStartsWith "http://" rel then rel
  else if pyStartsWith "//" rel then "https:" ++ rel
  else if pyStartsWith "/" rel then base ++ rel
  else base ++ "/" ++ rel

/-! ## Text normalization (lines 116-117 of the source)

`tag.get_text(strip=True).replace("−", "-").replace("\xad", "")` followed
by `unicodedata.normalize("NFKC", text)`. -/

/-- Modelled fragment of the Unicode NFKC mapping.  Per UnicodeData,
U+207B SUPERSCRIPT MINUS decomposes ⟨super⟩ U+2212 MINUS SIGN, U+208B
SUBSCRIPT MINUS decomposes ⟨sub⟩ U+2212, and U+00B2 SUPERSCRIPT TWO
decomposes to the digit 2.  The first two are, per UnicodeData, the ONLY
code points whose NFKC image contains U+2212, and no code point's NFKC
image contains U+00AD (soft hyphen) or a compatibility character — so on
the characters the normalization theorems quantify over, every remaining
code point either maps to itself (ASCII, Cyrillic, U+2212, U+00AD, ... )
or, like U+00B2 here, to an NFKC-stable image free of U+2212 and U+00AD;
the identity default therefore preserves the truth value of the
idempotence analysis. -/
def nfkcChar (c : Char) : List Char :=
  if c = '⁻' then ['−']
  else if c = '₋' then ['−']
  else if c = '²' then ['2']
  else [c]

/-- Model of `unicodedata.normalize("NFKC", s)` via the per-character
compatibility mapping (the analysed strings contain no combining
sequences, so canonical composition is the identity on them; NFKC itself
is idempotent, and the per-character table reflects every mapping whose
image could interact with the two `replace` calls, see `nfkcChar`). -/
def nfkc (s : String) : String := ⟨s.data.flatMap nfkcChar⟩

/-- Lines 116-117: rewrite the typographic minus U+2212 to the ASCII
hyphen-minus, delete soft hyphens, then NFKC-normalize. -/
def normalizeText (s : String) : String :=
  nfkc (pyReplaceS "\xad" "" (pyReplaceS "−" "-" s))

/-! ## `_get_problem_part` (lines 107-125) -/

/-- Line 108: `[img.get("src") for img in tag.find_all("img", class_="tex")]`. -/
def texSrcList (t : Node) : List (Option String) :=
  (t.findAllD (isTagClass "img" "tex")).map (getAttr "src")

/-- Lines 121-123: append the `src` of every `img` that has one and is not
already listed (the membership test runs against the list as grown so
far, exactly as Python's `append` inside the loop does). -/
def partImageLinks (init : List (Option String)) (t : Node) : List (Option String) :=
  (t.findAllD (isTagName "img")).foldl
    (fun acc img =>
      match getAttr "src" img with
      | some link => if acc.contains (some link) then acc else acc ++ [some link]
      | none => acc)
    init

mutual
/-- Lines 113-114: `img_tag.replace_with(recognized_texts.get(img_tag.get("src")))`
for every `img` of class `tex` — the element is replaced in the tree by a
text node holding the recognized TeX.  In the source the lookup key is
always present (the dict was built from exactly these images), so a
missing key is rendered as the empty string. -/
def Node.replaceTex (dict : List (Option String × String)) : Node → Node
  | .text s => .text s
  | .elem n cs as ch =>
    if isTagClass "img" "tex" (.elem n cs as ch) then
      .text (((dict.find? (fun kv => kv.1 == getAttr "src" (.elem n cs as ch))).map (·.2)).getD "")
    else
      .elem n cs as (NodeList.replaceTex dict ch)
/-- `replaceTex` over a node list. -/
def NodeList.replaceTex (dict : List (Option String × String)) : NodeList → NodeList
  | .nil => .nil
  | .cons c cs => .cons (Node.replaceTex dict c) (NodeList.replaceTex dict cs)
end

/-- Entry point of the replacement: `find_all` yields descendants only,
so the fragment's own root is never replaced. -/
def Node.replaceTexD (dict : List (Option String × String)) : Node → Node
  | .text s => .text s
  | .elem n cs as ch => .elem n cs as (NodeList.replaceTex dict ch)

/-- The `ProblemPart` built with `recognize_text=False`: empty text, the
fragment serialized as is, and the image links of the fragment. -/
def problemPartPlain (t : Node) : ProblemPart :=
  { text := "", html := t.toHtml, image_links := partImageLinks (texSrcList t) t }

/-- `SdamGIA._get_problem_part(tag, recognize_text)`.  The recognition
sub-pipeline `get_latex_from_url_list` (fetch, rasterize, OCR — all
external effects) is abstracted by `ocr : String → String`; its `"$" ∘ ocr
∘ "$"` wrapping (line 97) is kept.  A `None` entry in the url list would
flow into the url fetch and fail; this is modelled as `TypeError`. -/
def getProblemPart (ocr : String → String) (t : Node) : Bool → Except PyErr ProblemPart
  | false => .ok (problemPartPlain t)
  | true => do
    let links := texSrcList t
    let texts ← links.mapM (fun o =>
      match o with
      | some u => Except.ok ("$" ++ ocr u ++ "$")
      | none => Except.error PyErr.typeError)
    let t2 := t.replaceTexD (links.zip texts)
    Except.ok
      { text := normalizeText t2.getTextStrip
        html := t2.toHtml
        image_links := partImageLinks links t2 }

/-! ## `get_problem_by_id` (lines 127-181) -/

mutual
/-- Lines 138-140: for every `img` below the problem block,
`if BASE_DOMAIN not in img["src"]: img["src"] = urljoin(base_url, img["src"])`.
`img["src"]` raises `KeyError` when the attribute is absent (the
membership test evaluates it for every image, even ones left untouched). -/
def Node.rewriteImgs (base : String) : Node → Except PyErr Node
  | .text s => .ok (.text s)
  | .elem n cs as ch => do
    let ch' ← NodeList.rewriteImgs base ch
    if n == "img" then
      match (as.find? (fun kv => kv.1 == "src")).map (·.2) with
      | none => .error .keyError
      | some src =>
        .ok (.elem n cs
          (if pyInStr BASE_DOMAIN src then as else setAttrList "src" (urljoin base src) as)
          ch')
    else
      .ok (.elem n cs as ch')
/-- `rewriteImgs` over a node list. -/
def NodeList.rewriteImgs (base : String) : NodeList → Except PyErr NodeList
  | .nil => .ok .nil
  | .cons c cs => do
    let c' ← Node.rewriteImgs base c
    let cs' ← NodeList.rewriteImgs base cs
    .ok (.cons c' cs')
end

mutual
/-- In-place mutation of the document: the first
`div class="prob_maindiv"` (in document order) has its images rewritten;
the rest of the tree is untouched.  Returns the updated subtree together
with the updated problem block when it lies in this subtree.  This models
that `soup` and `problem_block` alias the same mutated tree. -/
def Node.rewriteContainer (base : String) : Node → Except PyErr (Node × Option Node)
  | .text s => .ok (.text s, none)
  | .elem n cs as ch =>
    if isTagClass "div" "prob_maindiv" (.elem n cs as ch) then do
      let r ← Node.rewriteImgs base (.elem n cs as ch)
      .ok (r, some r)
    else do
      let (ch', pb) ← NodeList.rewriteContainer base ch
      .ok (.elem n cs as ch', pb)
/-- `rewriteContainer` over a node list: only the first matching container
is rewritten. -/
def NodeList.rewriteContainer (base : String) : NodeList → Except PyErr (NodeList × Option Node)
  | .nil => .ok (.nil, none)
  | .cons c cs => do
    let (c', pb) ← Node.rewriteContainer base c
    match pb with
    | some r => .ok (.cons c' cs, some r)
    | none => do
      let (cs', pb') ← NodeList.rewriteContainer base cs
      .ok (.cons c' cs', pb')
end

/-- Lines 142-145: `int(problem_block.find("span", class_="prob_nums").text.split()[1])`
with `IndexError`, `AttributeError` and `ValueError` all recovered to
`None`. -/
def topicIdOf (pb : Node) : Option Int :=
  match pb.findFirst (isTagClass "span" "prob_nums") with
  | none => none
  | some t =>
    match (pySplitWs t.getText).get? 1 with
    | none => none
    | some tok => pyInt tok

/-- Shared recovery wrapper of lines 147-158: `IndexError` and
`AttributeError` from the part extraction are recovered to `None`; other
exceptions propagate. -/
def recoverPart (r : Except PyErr ProblemPart) : Except PyErr (Option ProblemPart) :=
  match r with
  | .ok p => .ok (some p)
  | .error .indexError => .ok none
  | .error .attributeError => .ok none
  | .error e => .error e

/-- Lines 147-151: the condition tag is `soup.find("div", class_="pbody")`
— searched in the WHOLE (mutated) document, not inside the problem block;
`None` makes `_get_problem_part` raise `AttributeError`, recovered to
`None`. -/
def conditionOf (ocr : String → String) (recognize : Bool) (doc : NodeList) :
    Except PyErr (Option ProblemPart) :=
  match doc.findFirst (isTagClass "div" "pbody") with
  | none => .ok none
  | some t => recoverPart (getProblemPart ocr t recognize)

/-- Lines 153-155: prefer `problem_block.find("div", class_="solution")`,
else fall back to `problem_block.find_all("div", class_="pbody")[1]`
(whose `IndexError` is recovered to a `None` solution). -/
def solutionTag (pb : Node) : Option Node :=
  match pb.findFirst (isTagClass "div" "solution") with
  | some t => some t
  | none => (pb.findAllD (isTagClass "div" "pbody")).get? 1

/-- Lines 153-158 assembled. -/
def solutionOf (ocr : String → String) (recognize : Bool) (pb : Node) :
    Except PyErr (Option ProblemPart) :=
  match solutionTag pb with
  | none => .ok none
  | some t => recoverPart (getProblemPart ocr t recognize)

/-- Lines 160-163:
`problem_block.find("div", class_="answer").text.lstrip("Ответ:").strip()`
with `IndexError`/`AttributeError` recovered to `""`.  Note `lstrip`
receives a character SET. -/
def answerOf (pb : Node) : String :=
  match pb.findFirst (isTagClass "div" "answer") with
  | none => ""
  | some t => pyStripS (pyLstripSetS "Ответ:" t.getText)

/-- Python `sorted` on a list of ints: a stable ascending sort
(insertion sort). -/
def pySorted (l : List Int) : List Int := List.insertionSort (· ≤ ·) l

/-- The numeric link targets kept by lines 165-170 from the link hrefs:
hrefs containing the decimal string of `problem_id` as a substring are
dropped, the literal `"/problem?id="` is deleted from the rest, and only
all-digit remainders are kept, as their integer value. -/
def numericTargets (pid : Int) (hrefs : List String) : List Int :=
  (hrefs.filter (fun h => !pyInStr (pyStrOfInt pid) h)).filterMap
    (fun h =>
      let i := pyReplaceS "/problem?id=" "" h
      if pyIsDigit i then some ((digitsToNat i.data : Nat) : Int) else none)

/-- Lines 165-170 — NOT inside any `try`: a missing related block
(`find("div", class_="minor")` returning `None`) raises `AttributeError`,
and a link without `href` raises `KeyError`; both abort the whole call.
`hrefListOf` reads `link["href"]` for every link of the related block. -/
def hrefListOf (m : Node) : Except PyErr (List String) :=
  (m.findAllD (isTagName "a")).mapM (fun l =>
    match getAttr "href" l with
    | none => Except.error PyErr.keyError
    | some h => Except.ok h)

/-- Lines 165-170 assembled. -/
def analogsOf (pid : Int) (pb : Node) : Except PyErr (List Int) := do
  match pb.findFirst (isTagClass "div" "minor") with
  | none => .error .attributeError
  | some m => do
    let hrefs ← hrefListOf m
    .ok (pySorted (numericTargets pid hrefs))

/-- `SdamGIA.get_problem_by_id` (lines 127-181), as a function of the
fetched problem page `doc`.  Control flow of the source: find the problem
block or raise `RuntimeError`; mutate all its image `src`s in place (the
document aliases the mutation); extract topic id, condition, solution and
answer with per-field recovery; extract the analog list unprotected;
build the record. -/
def get_problem_by_id (st : ClientState) (ocr : String → String) (problem_id : Int)
    (recognize_text : Bool) (doc : NodeList) : Except PyErr Problem := do
  match doc.findFirst (isTagClass "div" "prob_maindiv") with
  | none => .error .runtimeError
  | some _ => do
    let (doc', pb?) ← doc.rewriteContainer (base_url st)
    match pb? with
    | none => .error .runtimeError
    | some pb => do
      let topic_id := topicIdOf pb
      let condition ← conditionOf ocr recognize_text doc'
      let solution ← solutionOf ocr recognize_text pb
      let answer := answerOf pb
      let analogs ← analogsOf problem_id pb
      .ok { gia_type := st.gia_type, subject := st.subject, problem_id := problem_id,
            condition := condition, solution := solution, answer := answer,
            topic_id := topic_id, analogs := analogs }

/-! ## `handle_params` (lines 19-38)

The wrapped method is modelled as a state transformer on the client's
scope fields returning a Python result or exception; the wrapper saves
the two fields, installs the per-call overrides, runs the method, and
writes the saved values back — but only on the success path: the
assignment statements after `await method(...)` are not in a
`try/finally`, so an exception propagates before they run.
`overrideScope` is lines 26-29: install the per-call overrides. -/
def overrideScope (gia_type : Option GitType) (subject : Option String)
    (st : ClientState) : ClientState :=
  let st1 := match gia_type with
    | some g => { st with gia_type := g }
    | none => st
  match subject with
    | some s => { st1 with subject := some s }
    | none => st1

/-- The wrapper body. -/
def handle_params {α : Type} (method : ClientState → Except PyErr α × ClientState)
    (gia_type : Option GitType) (subject : Option String) (st : ClientState) :
    Except PyErr α × ClientState :=
  let save_gia_type := st.gia_type
  let save_subject := st.subject
  match method (overrideScope gia_type subject st) with
  | (.ok r, st3) => (.ok r, { st3 with gia_type := save_gia_type, subject := save_subject })
  | (.error e, st3) => (.error e, st3)

/-! ## Paginated collectors (lines 183-228) -/

/-- Line 195: `[int(i.text.split()[-1]) for i in soup.find_all("span", class_="prob_nums")]`.
`[-1]` on an empty split raises `IndexError`; a non-numeric token makes
`int` raise `ValueError`; neither is caught by `search`. -/
def extractSearchIds (doc : NodeList) : Except PyErr (List Int) :=
  (doc.findAll (isTagClass "span" "prob_nums")).mapM (fun t =>
    match (pySplitWs t.getText).getLast? with
    | none => Except.error PyErr.indexError
    | some tok =>
      match pyInt tok with
      | none => Except.error PyErr.valueError
      | some n => Except.ok n)

/-- Lines 222-226: the theme listing tests emptiness on the raw span
list, then takes `i.find("a").text` for each (an `AttributeError` when a
span has no link).  The emptiness test is equivalently performed on the
extracted list here: the mapped list is empty iff the span list is. -/
def extractThemeIds (doc : NodeList) : Except PyErr (List String) :=
  (doc.findAll (isTagClass "span" "prob_nums")).mapM (fun t =>
    match t.findFirst (isTagName "a") with
    | none => Except.error PyErr.attributeError
    | some a => Except.ok a.getText)

/-- The shared `while True` pagination loop of `search` (lines 190-202)
and `get_theme_by_id` (lines 216-228): fetch the page, extract the ids,
stop when none were found, otherwise accumulate and advance one page.
`fetch` models the page retrieval (`page ↦ parsed document`); the loop is
bounded by `fuel` (exhaustion returns the `noFuel` marker, which no
theorem relies on).  The result carries the accumulated ids and the list
of page numbers that were fetched. -/
def collectPages {α : Type} (fetch : Nat → NodeList)
    (extract : NodeList → Except PyErr (List α)) :
    Nat → Nat → List α → Except PyErr (List α × List Nat)
  | 0, _, _ => .error .noFuel
  | fuel+1, page, acc =>
    match extract (fetch page) with
    | .error e => .error e
    | .ok ids =>
      if ids.isEmpty then .ok (acc, [page])
      else
        match collectPages fetch extract fuel (page + 1) (acc ++ ids) with
        | .error e => .error e
        | .ok (r, ps) => .ok (r, page :: ps)

/-- `SdamGIA.search(query)` as a function of the per-page documents. -/
def search (fetch : Nat → NodeList) (fuel : Nat) : Except PyErr (List Int × List Nat) :=
  collectPages fetch extractSearchIds fuel 1 []

/-- `SdamGIA.get_theme_by_id(theme_id)` as a function of the per-page
documents. -/
def get_theme_by_id (fetch : Nat → NodeList) (fuel : Nat) :
    Except PyErr (List String × List Nat) :=
  collectPages fetch extractThemeIds fuel 1 []

/-! ## `get_catalog` (lines 230-271) -/

/-- One nested category of a catalog topic. -/
structure CatalogCategory where
  category_id : String
  category_name : String
deriving Repr, DecidableEq

/-- Modelled from the spec: one entry of the catalog (§3 CatalogEntry);
the source builds these as plain dicts. -/
structure CatalogEntry where
  topic_id : String
  topic_name : String
  categories : List CatalogCategory
deriving Repr, DecidableEq

/-- Lines 247-268: parse one topic block. -/
def parseTopic (topic : Node) : Except PyErr CatalogEntry := do
  let nameTag ← match topic.findFirst (isTagClass "b" "cat_name") with
    | none => Except.error PyErr.attributeError
    | some t => Except.ok t
  let topic_text := nameTag.getText
  let pieces := pySplitOnS ". " topic_text
  let topic_name ← match pieces.get? 1 with
    | none => Except.error PyErr.indexError
    | some s => Except.ok s
  let tid0 ← match pieces.get? 0 with
    | none => Except.error PyErr.indexError
    | some s => Except.ok s
  let tid1 ← match tid0.data with
    | [] => Except.error PyErr.indexError
    | c :: rest => Except.ok (if c = ' ' then (⟨rest.drop 1⟩ : String) else tid0)
  let tid2 := if pyStartsWith "Задания " tid1 then pyReplaceS "Задания " "" tid1 else tid1
  let childrenTag ← match topic.findFirst (isTagClass "div" "cat_children") with
    | none => Except.error PyErr.attributeError
    | some t => Except.ok t
  let cats ← (childrenTag.findAllD (isTagClass "div" "cat_category")).mapM (fun i => do
    let cid ← match getAttr "data-id" i with
      | none => Except.error PyErr.keyError
      | some v => Except.ok v
    let cnameTag ← match i.findFirst (isTagClass "a" "cat_name") with
      | none => Except.error PyErr.attributeError
      | some t => Except.ok t
    Except.ok { category_id := cid, category_name := cnameTag.getText })
  Except.ok { topic_id := tid2, topic_name := topic_name, categories := cats }

/-- `SdamGIA.get_catalog()` (lines 230-271) as a function of the fetched
catalog page.  Lines 240-244 run `i["data-id"]` under
`try ... except IndexError`: bs4 raises `KeyError` for a missing
attribute, which that clause does NOT catch — the first block lacking
`data-id` therefore aborts the call, and when every block has the
attribute the collected list stays empty. -/
def get_catalog (doc : NodeList) : Except PyErr (List CatalogEntry) := do
  let blocks := doc.findAll (isTagClass "div" "cat_category")
  let catalog ← blocks.foldlM
    (fun (acc : List Node) i =>
      match getAttr "data-id" i with
      | some _ => Except.ok acc
      | none => (Except.error PyErr.keyError : Except PyErr (List Node)))
    ([] : List Node)
  (catalog.drop 1).mapM parseTopic

/-- Modelled from the spec: the catalog parser as the spec describes it
(§4.5) — the source's `except IndexError` evidently intends to catch the
missing-attribute lookup failure (bs4 raises `KeyError` there), collecting
exactly the blocks without a category id and dropping the first of them.
This variant implements that intent; it differs from `get_catalog` only
in the caught exception. -/
def get_catalog_intent (doc : NodeList) : Except PyErr (List CatalogEntry) := do
  let blocks := doc.findAll (isTagClass "div" "cat_category")
  let catalog := blocks.filter (fun i => (getAttr "data-id" i).isNone)
  (catalog.drop 1).mapM parseTopic

/-- Convenience conversion for building concrete documents. -/
def NodeList.ofList : List Node → NodeList
  | [] => .nil
  | n :: ns => .cons n (NodeList.ofList ns)

/-! ## Derived characterizations used by the theorems -/

/-- The pointwise rule that lines 138-140 apply to an image `src`:
untouched exactly when it contains `BASE_DOMAIN` as a substring,
otherwise resolved against the base url. -/
def srcRule (base src : String) : String :=
  if pyInStr BASE_DOMAIN src then src else urljoin base src

/-- Deletion of all `src` bindings from an attribute list. -/
def dropSrcAttrs (as : List (String × String)) : List (String × String) :=
  as.filter (fun kv => !(kv.1 == "src"))

mutual
/-- Erasure of every `src` attribute in a tree; `rewriteImgs` only ever
changes what this function forgets. -/
def Node.eraseSrc : Node → Node
  | .text s => .text s
  | .elem n cs as ch => .elem n cs (dropSrcAttrs as) (NodeList.eraseSrc ch)
/-- `eraseSrc` over a node list. -/
def NodeList.eraseSrc : NodeList → NodeList
  | .nil => .nil
  | .cons c cs => .cons (Node.eraseSrc c) (NodeList.eraseSrc cs)
end

/-- Definition following the spec's words for the non-formula part of
`imageLinks` ("order = first occurrence", "each URL unique"): scan the
srcs in document order, skip those already listed in `seen`, and keep the
first occurrence of each remaining one. -/
def firstNewSrcs (seen : List String) : List String → List String
  | [] => []
  | x :: xs =>
    if seen.contains x then firstNewSrcs seen xs
    else x :: firstNewSrcs (x :: seen) xs

/-- The suffix that lines 121-123 append after the formula srcs: the
first occurrences, in document order, of the fragment's present image
srcs not already listed among the formula entries. -/
def remainingSrcs (t : Node) : List (Option String) :=
  (firstNewSrcs ((texSrcList t).filterMap id)
    ((t.findAllD (isTagName "img")).filterMap (getAttr "src"))).map some

/-- Definition following the spec's words, for comparison with the
source's `lstrip`: strip the literal label `"Ответ:"` once from the
front, then trim whitespace. -/
def answerSpecOnce (s : String) : String :=
  pyStripS (if pyStartsWith "Ответ:" s then ⟨s.data.drop "Ответ:".data.length⟩ else s)

/-- Character-level reading of the first `replace` of line 116. -/
def minusSwap (c : Char) : List Char :=
  if c = '−' then ['-'] else [c]

/-- Character-level reading of the second `replace` of line 116. -/
def softDel (c : Char) : List Char :=
  if c = '\xad' then [] else [c]

/-- The whole normalization of lines 116-117, character by character. -/
def charNorm (c : Char) : List Char :=
  ((minusSwap c).flatMap softDel).flatMap nfkcChar

/-! ## Concrete pages used by the witnesses and counterexamples -/

/-- A problem page whose container is present but whose related block
(`div class="minor"`) is absent; every other optional field is also
absent. -/
def docNoMinor : NodeList :=
  NodeList.ofList [.elem "div" ["prob_maindiv"] [] .nil]

/-- A related block holding links to problems 777, 100 (twice) and 50. -/
def minorC4 : Node :=
  .elem "div" ["minor"] [] (NodeList.ofList
    [ .elem "a" [] [("href", "/problem?id=777")] .nil,
      .elem "a" [] [("href", "/problem?id=100")] .nil,
      .elem "a" [] [("href", "/problem?id=100")] .nil,
      .elem "a" [] [("href", "/problem?id=50")] .nil ])

/-- A full problem page: topic span, two body blocks, answer and the
related block `minorC4`. -/
def containerFull : Node :=
  .elem "div" ["prob_maindiv"] [] (NodeList.ofList
    [ .elem "span" ["prob_nums"] [] (.cons (.text "Задание 7 № 1001") .nil),
      .elem "div" ["pbody"] [] (.cons (.text "cond") .nil),
      .elem "div" ["pbody"] [] (.cons (.text "sol") .nil),
      .elem "div" ["answer"] [] (.cons (.text "Ответ: 42") .nil),
      minorC4 ])

/-- The document holding `containerFull` alone. -/
def docFull : NodeList := NodeList.ofList [containerFull]

/-- The default client scope used by the concrete runs. -/
def stMath : ClientState := { gia_type := .ege, subject := some "math" }

/-- A body block that sits outside the problem container. -/
def outsidePbody : Node :=
  .elem "div" ["pbody"] [] (.cons (.text "outside") .nil)

/-- A problem container holding two body blocks and the related block. -/
def containerOutside : Node :=
  .elem "div" ["prob_maindiv"] [] (NodeList.ofList
    [ .elem "div" ["pbody"] [] (.cons (.text "inside A") .nil),
      .elem "div" ["pbody"] [] (.cons (.text "inside B") .nil),
      minorC4 ])

/-- A problem page whose first body block in document order sits BEFORE
(and outside) the problem container. -/
def docOutside : NodeList :=
  NodeList.ofList [outsidePbody, containerOutside]

/-- An answer block whose text continues, after the label, with
characters drawn from the label's own character set (`"вето"` starts with
`'в','е','т'`). -/
def answerTagC6 : Node :=
  .elem "div" ["answer"] [] (.cons (.text "Ответ:вето") .nil)

/-- A container holding only `answerTagC6`. -/
def pbC6 : Node :=
  .elem "div" ["prob_maindiv"] [] (.cons answerTagC6 .nil)

/-- A fragment with one image whose `src` is relative yet contains the
base domain as a substring. -/
def fragRelDomain : Node :=
  .elem "div" ["pbody"] []
    (.cons (.elem "img" [] [("src", "sdamgia.ru/rel.png")] .nil) .nil)

/-- A fragment holding a single formula image. -/
def fragTex : Node :=
  .elem "div" ["pbody"] []
    (.cons (.elem "img" ["tex"] [("src", "https://math-ege.sdamgia.ru/f.svg")] .nil) .nil)

/-- A fragment holding the same formula image twice. -/
def fragTexTwice : Node :=
  .elem "div" ["pbody"] [] (NodeList.ofList
    [ .elem "img" ["tex"] [("src", "https://math-ege.sdamgia.ru/f.svg")] .nil,
      .elem "img" ["tex"] [("src", "https://math-ege.sdamgia.ru/f.svg")] .nil ])

/-- A catalog page: the page-level pseudo block (no `data-id`) followed by
one topic block whose nested category carries `data-id="42"`. -/
def catalogDoc : NodeList :=
  NodeList.ofList
    [ .elem "div" ["cat_category"] [] .nil,
      .elem "div" ["cat_category"] [] (NodeList.ofList
        [ .elem "b" ["cat_name"] [] (.cons (.text "1. Алгебраические выражения") .nil),
          .elem "div" ["cat_children"] [] (NodeList.ofList
            [ .elem "div" ["cat_category"] [("data-id", "42")] (NodeList.ofList
                [ .elem "a" ["cat_name"] [] (.cons (.text "Вычисления") .nil) ]) ]) ]) ]

/-- A search-result span for the given problem id. -/
def searchSpan (n : Nat) : Node :=
  .elem "span" ["prob_nums"] []
    (.cons (.elem "a" [] [] (.cons (.text ("Задание В1 № " ++ (⟨natDigits n⟩ : String))) .nil)) .nil)

/-- Three search pages: two full pages then an empty one. -/
def searchFetch : Nat → NodeList
  | 1 => NodeList.ofList [searchSpan 11, searchSpan 12]
  | 2 => NodeList.ofList [searchSpan 21]
  | _ => .nil

/-- The per-page id lists of `searchFetch`. -/
def searchIds : Nat → List Int
  | 1 => [11, 12]
  | 2 => [21]
  | _ => []

/-- The link targets of `minorC4`, in document order. -/
def hrefsC4 : List String :=
  ["/problem?id=777", "/problem?id=100", "/problem?id=100", "/problem?id=50"]

/-! ## Helper lemmas -/

/-- With `recognize_text=False` the condition extraction is total: a
missing body block degrades to `None` and nothing else can fail. -/
theorem conditionOf_plain (ocr : String → String) (d : NodeList) :
    conditionOf ocr false d = .ok ((d.findFirst (isTagClass "div" "pbody")).map problemPartPlain) := by
  unfold conditionOf
  cases d.findFirst (isTagClass "div" "pbody") <;> simp [recoverPart, getProblemPart]

/-- With `recognize_text=False` the solution extraction is total. -/
theorem solutionOf_plain (ocr : String → String) (pb : Node) :
    solutionOf ocr false pb = .ok ((solutionTag pb).map problemPartPlain) := by
  unfold solutionOf
  cases solutionTag pb <;> simp [recoverPart, getProblemPart]

/-- Shifting a mapped range by one (pages `p..p+k` versus `p+1..p+k`). -/
theorem map_range_shift (p k : Nat) :
    (List.range (k + 1)).map (fun j => p + j) = p :: (List.range k).map (fun j => p + 1 + j) := by
  rw [List.range_succ_eq_map]
  simp only [List.map_cons, Nat.add_zero, List.map_map]
  exact congrArg _ (List.map_congr_left (fun j hj => by
    simp only [Function.comp_apply]; omega))

/-- Peeling the first page off a concatenation of per-page id lists. -/
theorem flatten_range_shift {α : Type} (g : Nat → List α) (p k : Nat) :
    ((List.range (k + 1)).map (fun j => g (p + j))).flatten =
      g p ++ ((List.range k).map (fun j => g (p + 1 + j))).flatten := by
  rw [List.range_succ_eq_map]
  simp only [List.map_cons, Nat.add_zero, List.flatten_cons, List.map_map]
  congr 2
  exact List.map_congr_left (fun j hj => by
    simp only [Function.comp_apply]
    exact congrArg g (by omega))

/-- The pagination loop, run from page `p` with accumulator `acc`: when
pages `p..p+k-1` yield non-empty id lists and page `p+k` yields none, the
loop returns the accumulated concatenation and fetches exactly pages
`p..p+k`. -/
theorem collectPages_run {α : Type} (fetch : Nat → NodeList)
    (extract : NodeList → Except PyErr (List α)) (ids : Nat → List α) :
    ∀ (k fuel p : Nat) (acc : List α),
      (∀ i, p ≤ i → i < p + k → extract (fetch i) = .ok (ids i) ∧ ids i ≠ []) →
      extract (fetch (p + k)) = .ok [] →
      k + 1 ≤ fuel →
      collectPages fetch extract fuel p acc =
        .ok (acc ++ ((List.range k).map (fun j => ids (p + j))).flatten,
             (List.range (k + 1)).map (fun j => p + j)) := by
  intro k
  induction k with
  | zero =>
    intro fuel p acc hne hend hf
    match fuel, hf with
    | f + 1, _ =>
      simp only [Nat.add_zero] at hend
      simp [collectPages, hend, List.range_succ]
  | succ k ih =>
    intro fuel p acc hne hend hf
    match fuel, hf with
    | f + 1, hf =>
      have hp : extract (fetch p) = .ok (ids p) ∧ ids p ≠ [] :=
        hne p (Nat.le_refl p) (by omega)
      have hrec := ih f (p + 1) (acc ++ ids p)
        (fun i h1 h2 => hne i (by omega) (by omega))
        (by have h : p + 1 + k = p + (k + 1) := by omega
            rw [h]; exact hend)
        (by omega)
      simp only [collectPages, hp.1]
      rw [if_neg (by simpa using hp.2)]
      rw [hrec]
      rw [flatten_range_shift ids p k]
      rw [map_range_shift p (k + 1)]
      simp [List.append_assoc]

/-- Replacing a single-character pattern is a character-wise map. -/
theorem replaceAux_single (a : Char) (rep : List Char) (l : List Char) :
    replaceAux [a] rep 0 l = l.flatMap (fun c => if c = a then rep else [c]) := by
  induction l with
  | nil => simp [replaceAux]
  | cons c cs ih =>
    simp only [replaceAux, List.isPrefixOf, List.flatMap_cons]
    by_cases h : a = c
    · subst h
      simp [ih]
    · rw [if_neg (by simp [h])]
      rw [if_neg (by exact fun hh => h hh.symm)]
      rw [ih]
      rfl

/-- `pyReplace` with a single-character pattern, character-wise. -/
theorem pyReplace_single (a : Char) (rep : List Char) (l : List Char) :
    pyReplace [a] rep l = l.flatMap (fun c => if c = a then rep else [c]) :=
  replaceAux_single a rep l

/-- The normalization of lines 116-117 acts character by character. -/
theorem normalizeText_charwise (s : String) :
    normalizeText s = ⟨s.data.flatMap charNorm⟩ := by
  unfold normalizeText pyReplaceS nfkc charNorm
  simp only [pyReplace_single]
  rw [List.flatMap_assoc, List.flatMap_assoc]
  refine congrArg String.mk ?_
  refine congrArg (List.flatMap s.data) (funext fun c => ?_)
  rw [List.flatMap_assoc]
  simp [minusSwap, softDel]

/-- A character touched by none of the special mappings is left
alone. -/
theorem charNorm_self {c : Char} (h1 : c ≠ '−') (h2 : c ≠ '\xad') (h3 : c ≠ '⁻') (h4 : c ≠ '²')
    (h5 : c ≠ '₋') : charNorm c = [c] := by
  simp [charNorm, minusSwap, softDel, nfkcChar, h1, h2, h3, h4, h5]

/-- Every character produced by normalizing a character other than the
superscript and subscript minuses is a fixed point of the
normalization. -/
theorem charNorm_fixed {c : Char} (h : c ≠ '⁻') (hs : c ≠ '₋') :
    ∀ d ∈ charNorm c, charNorm d = [d] := by
  by_cases h1 : c = '−'
  · subst h1
    intro d hd
    simp [charNorm, minusSwap, softDel, nfkcChar] at hd
    subst hd
    exact charNorm_self (by decide) (by decide) (by decide) (by decide) (by decide)
  by_cases h2 : c = '\xad'
  · subst h2
    intro d hd
    simp [charNorm, minusSwap, softDel, nfkcChar] at hd
  by_cases h4 : c = '²'
  · subst h4
    intro d hd
    simp [charNorm, minusSwap, softDel, nfkcChar] at hd
    subst hd
    exact charNorm_self (by decide) (by decide) (by decide) (by decide) (by decide)
  · intro d hd
    rw [charNorm_self h1 h2 h h4 hs] at hd
    simp at hd
    subst hd
    exact charNorm_self h1 h2 h h4 hs

/-- Pointwise-fixed maps do nothing under `flatMap`. -/
theorem flatMap_fixed {α : Type} (f : α → List α) (l : List α)
    (h : ∀ d ∈ l, f d = [d]) : l.flatMap f = l := by
  induction l with
  | nil => simp
  | cons c cs ih =>
    simp only [List.flatMap_cons]
    rw [h c (by simp), ih (fun d hd => h d (by simp [hd]))]
    simp

/-- Looking up `src` after the in-place assignment returns the assigned
value. -/
theorem getAttr_setAttr_src (v : String) :
    ∀ as : List (String × String),
      ((setAttrList "src" v as).find? (fun kv => kv.1 == "src")).map (·.2) = some v := by
  intro as
  induction as with
  | nil => simp [setAttrList]
  | cons kv rest ih =>
    by_cases h : kv.1 == "src"
    · simp [setAttrList, h]
    · simp only [setAttrList, h]
      rw [if_neg (by simp [h])]
      simp only [List.find?_cons, h]
      simpa using ih

/-- The `src` assignment changes nothing outside the `src` bindings. -/
theorem dropSrc_setAttr (v : String) :
    ∀ as : List (String × String),
      dropSrcAttrs (setAttrList "src" v as) = dropSrcAttrs as := by
  intro as
  induction as with
  | nil => simp [setAttrList, dropSrcAttrs]
  | cons kv rest ih =>
    by_cases h : kv.1 == "src"
    · simp only [setAttrList, h, if_pos]
      simp only [dropSrcAttrs, List.filter_cons]
      simp [h]
    · simp only [setAttrList]
      rw [if_neg (by simp [h])]
      simp only [dropSrcAttrs, List.filter_cons] at ih ⊢
      simp [h, ih]

mutual
/-- Lines 138-140 change exactly the image `src` attributes, by the
pointwise `srcRule`: the `src` lists before and after correspond. -/
theorem rewriteImgs_srcs (base : String) :
    ∀ (t t' : Node), Node.rewriteImgs base t = .ok t' →
      (Node.findAllSelf (isTagName "img") t').map (getAttr "src") =
        ((Node.findAllSelf (isTagName "img") t).map (getAttr "src")).map
          (Option.map (srcRule base))
  | .text s, t', h => by
    have ht : t' = .text s := by
      simpa [Node.rewriteImgs] using h.symm
    subst ht
    simp [Node.findAllSelf, isTagName]
  | .elem n cs as ch, t', h => by
    cases hch : NodeList.rewriteImgs base ch with
    | error e => simp [Node.rewriteImgs, hch, bind, Except.bind] at h
    | ok ch' =>
      have hrec := rewriteImgsL_srcs base ch ch' hch
      by_cases him : (n == "img") = true
      · cases hsrc : (as.find? (fun kv => kv.1 == "src")).map (·.2) with
        | none => simp [Node.rewriteImgs, hch, bind, Except.bind, him, hsrc] at h
        | some src =>
          simp only [Node.rewriteImgs, hch, bind, Except.bind, him, if_pos, hsrc] at h
          have ht : t' = .elem n cs
              (if pyInStr BASE_DOMAIN src then as else setAttrList "src" (urljoin base src) as)
              ch' := (Except.ok.inj h).symm
          subst ht
          simp only [Node.findAllSelf, isTagName, him, if_pos, List.map_append, List.map_cons]
          rw [hrec]
          congr 1
          · by_cases hd : pyInStr BASE_DOMAIN src = true
            · rw [if_pos hd]
              simp only [getAttr]
              rw [hsrc]
              simp [srcRule, hd]
            · rw [if_neg hd]
              simp only [getAttr]
              rw [getAttr_setAttr_src, hsrc]
              simp [srcRule, hd]
      · simp only [Node.rewriteImgs, hch, bind, Except.bind, him] at h
        rw [if_neg (by simp [him])] at h
        have ht : t' = .elem n cs as ch' := (Except.ok.inj h).symm
        subst ht
        simp only [Node.findAllSelf, isTagName, him]
        rw [if_neg (by simp [him]), if_neg (by simp [him])]
        simpa using hrec
/-- List version of `rewriteImgs_srcs`. -/
theorem rewriteImgsL_srcs (base : String) :
    ∀ (l l' : NodeList), NodeList.rewriteImgs base l = .ok l' →
      (NodeList.findAll (isTagName "img") l').map (getAttr "src") =
        ((NodeList.findAll (isTagName "img") l).map (getAttr "src")).map
          (Option.map (srcRule base))
  | .nil, l', h => by
    have ht : l' = .nil := by simpa [NodeList.rewriteImgs] using h.symm
    subst ht
    simp [NodeList.findAll]
  | .cons c csl, l', h => by
    cases hc : Node.rewriteImgs base c with
    | error e => simp [NodeList.rewriteImgs, hc, bind, Except.bind] at h
    | ok c' =>
      cases hcs : NodeList.rewriteImgs base csl with
      | error e => simp [NodeList.rewriteImgs, hc, hcs, bind, Except.bind] at h
      | ok cs' =>
        simp only [NodeList.rewriteImgs, hc, hcs, bind, Except.bind] at h
        have ht : l' = .cons c' cs' := (Except.ok.inj h).symm
        subst ht
        simp only [NodeList.findAll, List.map_append]
        rw [rewriteImgs_srcs base c c' hc, rewriteImgsL_srcs base csl cs' hcs]
end

mutual
/-- Apart from the image `src` attributes, lines 138-140 leave the tree
untouched. -/
theorem rewriteImgs_erase (base : String) :
    ∀ (t t' : Node), Node.rewriteImgs base t = .ok t' → t'.eraseSrc = t.eraseSrc
  | .text s, t', h => by
    have ht : t' = .text s := by simpa [Node.rewriteImgs] using h.symm
    subst ht
    rfl
  | .elem n cs as ch, t', h => by
    cases hch : NodeList.rewriteImgs base ch with
    | error e => simp [Node.rewriteImgs, hch, bind, Except.bind] at h
    | ok ch' =>
      have hrec := rewriteImgsL_erase base ch ch' hch
      by_cases him : (n == "img") = true
      · cases hsrc : (as.find? (fun kv => kv.1 == "src")).map (·.2) with
        | none => simp [Node.rewriteImgs, hch, bind, Except.bind, him, hsrc] at h
        | some src =>
          simp only [Node.rewriteImgs, hch, bind, Except.bind, him, if_pos, hsrc] at h
          have ht : t' = .elem n cs
              (if pyInStr BASE_DOMAIN src then as else setAttrList "src" (urljoin base src) as)
              ch' := (Except.ok.inj h).symm
          subst ht
          simp only [Node.eraseSrc, hrec]
          by_cases hd : pyInStr BASE_DOMAIN src = true
          · rw [if_pos hd]
          · rw [if_neg hd, dropSrc_setAttr]
      · simp only [Node.rewriteImgs, hch, bind, Except.bind, him] at h
        rw [if_neg (by simp [him])] at h
        have ht : t' = .elem n cs as ch' := (Except.ok.inj h).symm
        subst ht
        simp only [Node.eraseSrc, hrec]
/-- List version of `rewriteImgs_erase`. -/
theorem rewriteImgsL_erase (base : String) :
    ∀ (l l' : NodeList), NodeList.rewriteImgs base l = .ok l' →
      l'.eraseSrc = l.eraseSrc
  | .nil, l', h => by
    have ht : l' = .nil := by simpa [NodeList.rewriteImgs] using h.symm
    subst ht
    rfl
  | .cons c csl, l', h => by
    cases hc : Node.rewriteImgs base c with
    | error e => simp [NodeList.rewriteImgs, hc, bind, Except.bind] at h
    | ok c' =>
      cases hcs : NodeList.rewriteImgs base csl with
      | error e => simp [NodeList.rewriteImgs, hc, hcs, bind, Except.bind] at h
      | ok cs' =>
        simp only [NodeList.rewriteImgs, hc, hcs, bind, Except.bind] at h
        have ht : l' = .cons c' cs' := (Except.ok.inj h).symm
        subst ht
        simp only [NodeList.eraseSrc]
        rw [rewriteImgs_erase base c c' hc, rewriteImgsL_erase base csl cs' hcs]
end

/-- Membership in the collected values of an option list. -/
theorem contains_filterMap_id (v : String) : ∀ acc : List (Option String),
    (acc.filterMap id).contains v = acc.contains (some v) := by
  intro acc
  induction acc with
  | nil => rfl
  | cons o os ih =>
    cases o <;> simp [List.filterMap_cons, List.contains_cons, ih]

/-- `firstNewSrcs` only looks at `seen` through membership. -/
theorem firstNewSrcs_congr (l : List String) : ∀ s1 s2 : List String,
    (∀ x, s1.contains x = s2.contains x) → firstNewSrcs s1 l = firstNewSrcs s2 l := by
  induction l with
  | nil => intro s1 s2 h; rfl
  | cons y ys ih =>
    intro s1 s2 h
    simp only [firstNewSrcs, h y]
    by_cases hy : s2.contains y = true
    · rw [if_pos hy, if_pos hy]
      exact ih s1 s2 h
    · rw [if_neg hy, if_neg hy]
      refine congrArg _ (ih (y :: s1) (y :: s2) (fun x => ?_))
      simp only [List.contains_cons]
      rw [h x]

/-- Nothing `firstNewSrcs` keeps was already seen. -/
theorem firstNewSrcs_not_seen (l : List String) : ∀ seen : List String,
    ∀ x ∈ firstNewSrcs seen l, seen.contains x = false := by
  induction l with
  | nil => intro seen x hx; simp [firstNewSrcs] at hx
  | cons y ys ih =>
    intro seen x hx
    simp only [firstNewSrcs] at hx
    by_cases hy : seen.contains y = true
    · rw [if_pos hy] at hx
      exact ih seen x hx
    · rw [if_neg hy] at hx
      rcases List.mem_cons.1 hx with rfl | hx
      · simpa using hy
      · have hrec := ih (y :: seen) x hx
        simp only [List.contains_cons, Bool.or_eq_false_iff] at hrec
        exact hrec.2

/-- `firstNewSrcs` keeps each remaining src exactly once. -/
theorem firstNewSrcs_nodup (l : List String) : ∀ seen : List String,
    (firstNewSrcs seen l).Nodup := by
  induction l with
  | nil => intro seen; simp [firstNewSrcs]
  | cons y ys ih =>
    intro seen
    simp only [firstNewSrcs]
    by_cases hy : seen.contains y = true
    · rw [if_pos hy]
      exact ih seen
    · rw [if_neg hy]
      refine List.nodup_cons.2 ⟨fun hc => ?_, ih (y :: seen)⟩
      have := firstNewSrcs_not_seen ys (y :: seen) y hc
      simp [List.contains_cons] at this

/-- The image-link accumulation loop of lines 121-123 appends, after any
initial list, exactly the first occurrences (in document order) of the
present `src`s not already listed. -/
theorem imageLinks_foldl_spec (imgs : List Node) : ∀ acc : List (Option String),
    imgs.foldl
        (fun acc img =>
          match getAttr "src" img with
          | some link => if acc.contains (some link) then acc else acc ++ [some link]
          | none => acc)
        acc =
      acc ++ (firstNewSrcs (acc.filterMap id) (imgs.filterMap (getAttr "src"))).map some := by
  induction imgs with
  | nil => intro acc; simp [firstNewSrcs]
  | cons img rest ih =>
    intro acc
    simp only [List.foldl_cons]
    cases hsrc : getAttr "src" img with
    | none =>
      simp only [hsrc, List.filterMap_cons]
      exact ih acc
    | some link =>
      simp only [hsrc, List.filterMap_cons]
      by_cases hmem : acc.contains (some link) = true
      · rw [if_pos hmem]
        simp only [firstNewSrcs, contains_filterMap_id, hmem, if_pos]
        exact ih acc
      · rw [if_neg hmem]
        rw [ih (acc ++ [some link])]
        simp only [firstNewSrcs, contains_filterMap_id, hmem]
        rw [if_neg (by simp [hmem])]
        rw [firstNewSrcs_congr (rest.filterMap (getAttr "src"))
          ((acc ++ [some link]).filterMap id) (link :: acc.filterMap id)
          (fun x => by simp [List.contains_cons, contains_filterMap_id, Bool.or_comm])]
        simp

/-! ## Claim C1 -/

/-- Claim C1, counterexample.  The claim asserts that a failure to
extract the analog list never makes `get_problem_by_id` fail.  On a page
whose problem container is present but whose related block
(`div class="minor"`) is absent, the extraction of every other optional
field degrades, yet line 167 calls `.find_all` on the `None` returned by
`find("div", class_="minor")` outside any `try`, so the whole call raises
`AttributeError` instead of returning a record with empty analogs. -/
theorem c1_counterexample :
    (docNoMinor.findFirst (isTagClass "div" "prob_maindiv")).isSome = true ∧
    get_problem_by_id stMath (fun _ => "") 1 false docNoMinor = .error .attributeError := by
  decide

/-- Claim C1, amended.  With `recognize_text=False`: if the main problem
container is absent the call fails and produces no record; if the
container is present, the image rewrite succeeds, and the analog
extraction succeeds (the related block is present with `href`-carrying
links), then the call succeeds, and a failure to extract the topic id,
condition, solution or answer never makes it fail — each degrades to
`None` (topic id, condition, solution) or `""` (answer) as computed by
the corresponding total extractor. -/
theorem c1_amended (st : ClientState) (ocr : String → String) (pid : Int)
    (doc doc' : NodeList) (c0 pb : Node) (l : List Int)
    (hc : doc.findFirst (isTagClass "div" "prob_maindiv") = some c0)
    (hr : doc.rewriteContainer (base_url st) = .ok (doc', some pb))
    (ha : analogsOf pid pb = .ok l) :
    (∀ d : NodeList, d.findFirst (isTagClass "div" "prob_maindiv") = none →
        get_problem_by_id st ocr pid false d = .error .runtimeError) ∧
    get_problem_by_id st ocr pid false doc =
      .ok { gia_type := st.gia_type, subject := st.subject, problem_id := pid,
            condition := (doc'.findFirst (isTagClass "div" "pbody")).map problemPartPlain,
            solution := (solutionTag pb).map problemPartPlain,
            answer := answerOf pb, topic_id := topicIdOf pb, analogs := l } := by
  constructor
  · intro d hd
    unfold get_problem_by_id
    rw [hd]
  · unfold get_problem_by_id
    rw [hc, hr]
    simp [conditionOf_plain, solutionOf_plain, ha, bind, Except.bind]

/-- Claim C1, witness for the amended theorem on concrete page
`docFull`. -/
theorem c1_amended_witness :
    get_problem_by_id stMath (fun _ => "") 77 false docFull =
      .ok { gia_type := stMath.gia_type, subject := stMath.subject, problem_id := 77,
            condition := (docFull.findFirst (isTagClass "div" "pbody")).map problemPartPlain,
            solution := (solutionTag containerFull).map problemPartPlain,
            answer := answerOf containerFull, topic_id := topicIdOf containerFull,
            analogs := [50, 100, 100] } :=
  (c1_amended stMath (fun _ => "") 77 docFull docFull containerFull containerFull
    [50, 100, 100] (by decide) (by decide) (by decide)).2

/-! ## Claim C2 -/

/-- Claim C2.  The shared pagination loop of `search` and
`get_theme_by_id`: if pages `1..k` each yield a non-empty id list and
page `k+1` yields none, the result is the concatenation of the ids of
pages `1..k` in page order; the pages fetched are exactly `1..k+1` —
starting at page 1, advancing by one per iteration, and in particular
when page 1 is empty (`k = 0`) the result is empty and page 2 is never
fetched. -/
theorem c2_paginated {α : Type} (fetch : Nat → NodeList)
    (extract : NodeList → Except PyErr (List α)) (ids : Nat → List α) (k fuel : Nat)
    (hpages : ∀ i, 1 ≤ i → i ≤ k → extract (fetch i) = .ok (ids i) ∧ ids i ≠ [])
    (hempty : extract (fetch (k + 1)) = .ok [])
    (hfuel : k + 1 ≤ fuel) :
    collectPages fetch extract fuel 1 [] =
      .ok (((List.range k).map (fun j => ids (1 + j))).flatten,
           (List.range (k + 1)).map (fun j => 1 + j)) ∧
    ∀ q, q ∈ (List.range (k + 1)).map (fun j => 1 + j) ↔ 1 ≤ q ∧ q ≤ k + 1 := by
  constructor
  · have h := collectPages_run fetch extract ids k fuel 1 []
      (fun i h1 h2 => hpages i h1 (by omega))
      (by have h1k : 1 + k = k + 1 := by omega
          rw [h1k]; exact hempty)
      hfuel
    simpa using h
  · intro q
    simp only [List.mem_map, List.mem_range]
    constructor
    · rintro ⟨j, hj, rfl⟩; omega
    · rintro ⟨h1, h2⟩; exact ⟨q - 1, by omega, by omega⟩

/-- Claim C2, witness: `search`'s collector over three concrete pages
(two non-empty, then an empty one). -/
theorem c2_paginated_witness :
    collectPages searchFetch extractSearchIds 10 1 [] = .ok ([11, 12, 21], [1, 2, 3]) := by
  have h := c2_paginated searchFetch extractSearchIds searchIds 2 10
    (by intro i h1 h2
        interval_cases i <;> exact ⟨by decide, by decide⟩)
    (by decide) (by decide)
  rw [h.1]
  decide

/-! ## Claim C3 -/

/-- Claim C3, counterexample.  The claim asserts the ambient scope is
restored regardless of success or failure.  When the wrapped method
raises, the restoring assignments of lines 33-34 never run (there is no
`try/finally`), so the per-call override persists in the client state:
starting from scope (EGE, math) with override (OGE, phys) and a failing
method, the final state keeps the override. -/
theorem c3_counterexample :
    (handle_params (fun s => ((Except.error PyErr.runtimeError : Except PyErr Unit), s))
        (some GitType.oge) (some "phys") stMath).2 =
      { gia_type := GitType.oge, subject := some "phys" } ∧
    ({ gia_type := GitType.oge, subject := some "phys" } : ClientState) ≠ stMath := by
  decide

/-- Claim C3, amended.  The override applies only for the duration of the
call and the ambient scope is restored afterwards — provided the call
succeeds; on an exception the mutated scope is left in place (see the
counterexample). -/
theorem c3_amended {α : Type} (method : ClientState → Except PyErr α × ClientState)
    (g : Option GitType) (s : Option String) (st : ClientState) (r : α) (st3 : ClientState)
    (h : method (overrideScope g s st) = (.ok r, st3)) :
    handle_params method g s st = (.ok r, { gia_type := st.gia_type, subject := st.subject }) := by
  unfold handle_params
  rw [h]

/-- Claim C3, witness for the amended theorem: a succeeding method with
both overrides installed. -/
theorem c3_amended_witness :
    handle_params (fun s => ((Except.ok 5 : Except PyErr Nat), s)) (some .oge) (some "phys") stMath =
      (.ok 5, { gia_type := stMath.gia_type, subject := stMath.subject }) :=
  c3_amended _ (some .oge) (some "phys") stMath 5
    { gia_type := .oge, subject := some "phys" } (by decide)

/-! ## Claim C4 -/

/-- Claim C4, counterexample.  Querying problem 77 on a page whose
related block links to 777, 100, 100 and 50: the link to 777 has a target
id different from 77, yet it is dropped because the filter of line 168
tests `str(problem_id) not in href` — a substring test — and `"77"`
occurs inside `"777"`; and the duplicated link to 100 survives `sorted`
twice, so the result is not strictly ascending.  Both parts of the claim
fail. -/
theorem c4_counterexample :
    analogsOf 77 containerFull = .ok [50, 100, 100] ∧
    ¬ List.Sorted (· < ·) ([50, 100, 100] : List Int) ∧
    (∀ x ∈ ([50, 100, 100] : List Int), x ≠ 777) := by
  decide

/-- Claim C4, amended.  The analogs list is ascending (non-strictly:
duplicate links survive), and consists exactly of the integer values of
the all-digit strings obtained by deleting `"/problem?id="` from those
hrefs of the related block's links that do NOT contain the decimal
representation of the queried id as a substring (a substring filter, not
a target-id comparison). -/
theorem c4_amended (pid : Int) (pb m : Node) (hrefs : List String) (l : List Int)
    (hm : pb.findFirst (isTagClass "div" "minor") = some m)
    (hh : hrefListOf m = .ok hrefs)
    (hl : analogsOf pid pb = .ok l) :
    l = pySorted (numericTargets pid hrefs) ∧
    List.Sorted (· ≤ ·) l ∧
    (∀ x, x ∈ l ↔ x ∈ numericTargets pid hrefs) := by
  have key : analogsOf pid pb = .ok (pySorted (numericTargets pid hrefs)) := by
    unfold analogsOf
    rw [hm]
    simp [hh, bind, Except.bind]
  rw [key] at hl
  obtain rfl : pySorted (numericTargets pid hrefs) = l := by
    injection hl
  refine ⟨rfl, List.sorted_insertionSort _ _, fun x => ?_⟩
  exact (List.perm_insertionSort _ _).mem_iff

/-- Claim C4, witness for the amended theorem on the concrete related
block `minorC4`. -/
theorem c4_amended_witness :
    ([50, 100, 100] : List Int) = pySorted (numericTargets 77 hrefsC4) ∧
    List.Sorted (· ≤ ·) ([50, 100, 100] : List Int) ∧
    (∀ x, x ∈ ([50, 100, 100] : List Int) ↔ x ∈ numericTargets 77 hrefsC4) :=
  c4_amended 77 containerFull minorC4 hrefsC4 [50, 100, 100]
    (by decide) (by decide) (by decide)

/-! ## Claim C5 -/

/-- Claim C5, counterexample.  Two failures of the claim: (1) a relative
`src` that happens to contain the base domain as a substring
(`"sdamgia.ru/rel.png"`) is NOT rewritten to an absolute URL — the test
of line 139 is a substring test, not an absolute-same-domain test; (2)
with `recognizeText=true` the formula image elements are replaced by the
recognized text before the fragment is serialized, so `html` does not
preserve the fragment's image elements. -/
theorem c5_counterexample :
    Node.rewriteImgs (base_url stMath) fragRelDomain = .ok fragRelDomain ∧
    pyStartsWith "http" "sdamgia.ru/rel.png" = false ∧
    getProblemPart (fun _ => "E") fragTex true =
      .ok { text := "$E$", html := "<div class=\"pbody\">$E$</div>",
            image_links := [some "https://math-ege.sdamgia.ru/f.svg"] } ∧
    ("<div class=\"pbody\">$E$</div>" : String) ≠ fragTex.toHtml := by
  decide

/-- Claim C5, amended.  With `recognizeText=false`, the part's `html` is
exactly the serialization of the rewritten fragment, where the rewrite of
lines 138-140 changes nothing but the image `src` attributes: every `src`
is mapped by `srcRule` (kept verbatim when it contains `BASE_DOMAIN` as a
substring — even when relative — and resolved through `urljoin`
otherwise), and erasing the `src` attributes recovers the original
fragment, so in particular the image elements themselves survive. -/
theorem c5_amended (base : String) (ocr : String → String) (t t' : Node)
    (hr : Node.rewriteImgs base t = .ok t') :
    getProblemPart ocr t' false = .ok (problemPartPlain t') ∧
    (problemPartPlain t').html = t'.toHtml ∧
    (Node.findAllSelf (isTagName "img") t').map (getAttr "src") =
      ((Node.findAllSelf (isTagName "img") t).map (getAttr "src")).map
        (Option.map (srcRule base)) ∧
    t'.eraseSrc = t.eraseSrc :=
  ⟨rfl, rfl, rewriteImgs_srcs base t t' hr, rewriteImgs_erase base t t' hr⟩

/-- Claim C5, witness for the amended theorem on the concrete fragment
`fragTex` (whose absolute same-domain `src` is left untouched). -/
theorem c5_amended_witness :
    getProblemPart (fun _ => "E") fragTex false = .ok (problemPartPlain fragTex) ∧
    (problemPartPlain fragTex).html = fragTex.toHtml ∧
    (Node.findAllSelf (isTagName "img") fragTex).map (getAttr "src") =
      ((Node.findAllSelf (isTagName "img") fragTex).map (getAttr "src")).map
        (Option.map (srcRule (base_url stMath))) ∧
    fragTex.eraseSrc = fragTex.eraseSrc :=
  c5_amended (base_url stMath) (fun _ => "E") fragTex fragTex (by decide)

/-! ## Claim C6 -/

/-- Claim C6, counterexample.  `lstrip("Ответ:")` strips a character SET,
not the literal prefix once: for answer text `"Ответ:вето"` the code
also consumes the `'в','е','т'` of `"вето"` and returns `"о"`, while the
claim (formalized by `answerSpecOnce`) demands `"вето"`. -/
theorem c6_counterexample :
    answerOf pbC6 = "о" ∧ answerSpecOnce "Ответ:вето" = "вето" ∧ ("о" : String) ≠ "вето" := by
  decide

/-- Claim C6, amended.  When the answer block is present, the extracted
answer is the block's text with the LEADING CHARACTERS DRAWN FROM THE SET
`{'О','т','в','е',':'}` (the characters of the label `"Ответ:"`) removed
and the remainder trimmed of surrounding whitespace; when the block is
absent the answer is the empty string. -/
theorem c6_amended (pb t : Node)
    (hf : pb.findFirst (isTagClass "div" "answer") = some t) :
    answerOf pb =
      pyStripS ⟨t.getText.data.dropWhile
        (fun c => c == 'О' || c == 'т' || c == 'в' || c == 'е' || c == ':')⟩ ∧
    ∀ pb' : Node, pb'.findFirst (isTagClass "div" "answer") = none → answerOf pb' = "" := by
  constructor
  · unfold answerOf
    rw [hf]
    unfold pyLstripSetS pyLstripSet
    have hpred : (fun c => ("Ответ:" : String).data.contains c) =
        (fun c => c == 'О' || c == 'т' || c == 'в' || c == 'е' || c == ':') := by
      funext c
      show (['О', 'т', 'в', 'е', 'т', ':'].contains c) = _
      by_cases h1 : c = 'О' <;> by_cases h2 : c = 'т' <;> by_cases h3 : c = 'в' <;>
        by_cases h4 : c = 'е' <;> by_cases h5 : c = ':' <;>
        simp [h1, h2, h3, h4, h5, List.contains_cons]
    rw [hpred]
  · intro pb' h
    unfold answerOf
    rw [h]

/-- Claim C6, witness for the amended theorem on the concrete block
`answerTagC6`. -/
theorem c6_amended_witness :
    answerOf pbC6 =
      pyStripS ⟨(Node.getText answerTagC6).data.dropWhile
        (fun c => c == 'О' || c == 'т' || c == 'в' || c == 'е' || c == ':')⟩ ∧
    ∀ pb' : Node, pb'.findFirst (isTagClass "div" "answer") = none → answerOf pb' = "" :=
  c6_amended pbC6 answerTagC6 (by decide)

/-! ## Claim C7 -/

/-- Claim C7.  The claim describes the evident intent, but the code does
not implement it: lines 241-244 guard `i["data-id"]` with
`except IndexError`, while bs4's attribute lookup raises `KeyError` for a
missing attribute.  On a catalog page with the pseudo block and the
claim's own example topic `"1. Алгебраические выражения"`, `get_catalog`
raises `KeyError` (and on a page where every block carries `data-id` it
would return the empty list, since nothing is ever collected).  The
intent variant `get_catalog_intent`, which catches the lookup failure,
produces exactly the entry the claim describes, splitting the label on
`". "` into `topicId="1"`, `topicName="Алгебраические выражения"`. -/
theorem c7_code_behavior :
    get_catalog catalogDoc = .error .keyError ∧
    get_catalog_intent catalogDoc =
      .ok [{ topic_id := "1", topic_name := "Алгебраические выражения",
             categories := [{ category_id := "42", category_name := "Вычисления" }] }] := by
  decide

/-! ## Claim C8 -/

/-- Claim C8, counterexample.  Two formula images sharing one `src` put
that URL into `image_links` twice: line 108 collects the formula `src`s
with a plain comprehension and only the non-formula loop of lines 121-123
deduplicates, so `imageLinks` is not duplicate-free. -/
theorem c8_counterexample :
    (problemPartPlain fragTexTwice).image_links =
      [some "https://math-ege.sdamgia.ru/f.svg", some "https://math-ege.sdamgia.ru/f.svg"] ∧
    ¬ (problemPartPlain fragTexTwice).image_links.Nodup := by
  decide

/-- Claim C8, amended.  `imageLinks` is the formula-class (`tex`) image
`src`s in document order — duplicates included — followed by exactly the
first occurrences, in document order, of the fragment's remaining present
`src`s (those not already listed among the formula entries); this suffix
is duplicate-free and none of its entries repeats an entry of the formula
part. -/
theorem c8_amended (t : Node) :
    partImageLinks (texSrcList t) t = texSrcList t ++ remainingSrcs t ∧
    (remainingSrcs t).Nodup ∧
    ∀ x ∈ remainingSrcs t, x ∉ texSrcList t ∧ x.isSome := by
  refine ⟨imageLinks_foldl_spec _ _, ?_, ?_⟩
  · exact (firstNewSrcs_nodup _ _).map (Option.some_injective _)
  · intro x hx
    obtain ⟨v, hv, rfl⟩ := List.mem_map.1 hx
    have hns := firstNewSrcs_not_seen _ _ v hv
    rw [contains_filterMap_id] at hns
    refine ⟨fun hmem => ?_, rfl⟩
    have hc : (texSrcList t).contains (some v) = true := List.elem_iff.2 hmem
    rw [hc] at hns
    cases hns

/-! ## Claim C9 -/

/-- Claim C9, counterexample.  The normalization is not idempotent: NFKC
maps the superscript minus U+207B (and likewise the subscript minus
U+208B) to the typographic minus U+2212, but only AFTER the `replace` of
line 116 has run, so `normalizeText "⁻"` ends in `"−"` and a second
application rewrites it to `"-"`. -/
theorem c9_counterexample :
    normalizeText "⁻" = "−" ∧ normalizeText (normalizeText "⁻") = "-" ∧
    normalizeText (normalizeText "⁻") ≠ normalizeText "⁻" ∧
    normalizeText "₋" = "−" ∧ normalizeText (normalizeText "₋") = "-" ∧
    normalizeText (normalizeText "₋") ≠ normalizeText "₋" := by
  decide

/-- Claim C9, amended.  On every string free of the superscript minus
U+207B and the subscript minus U+208B — per UnicodeData the only code
points whose NFKC image contains the typographic minus that the first
`replace` targets — the normalization is idempotent; it is not
idempotent in general (see the counterexample). -/
theorem c9_amended (s : String) (h : '⁻' ∉ s.data) (hs : '₋' ∉ s.data) :
    normalizeText (normalizeText s) = normalizeText s := by
  rw [normalizeText_charwise s]
  rw [normalizeText_charwise ⟨s.data.flatMap charNorm⟩]
  apply congrArg
  apply flatMap_fixed
  intro d hd
  rw [List.mem_flatMap] at hd
  obtain ⟨c, hc, hdc⟩ := hd
  exact charNorm_fixed (fun heq => h (heq ▸ hc)) (fun heq => hs (heq ▸ hc)) d hdc

/-- Claim C9, witness for the amended theorem on a concrete string with
a typographic minus, a superscript two and a soft hyphen. -/
theorem c9_amended_witness :
    '⁻' ∉ ("x −² y\xad" : String).data ∧ '₋' ∉ ("x −² y\xad" : String).data ∧
      normalizeText (normalizeText "x −² y\xad") = normalizeText "x −² y\xad" :=
  ⟨by decide, by decide, c9_amended _ (by decide) (by decide)⟩

/-! ## Claim C10 -/

/-- Claim C10.  The condition part is built from the first body block
(`div class="pbody"`) of the ENTIRE document (line 148 searches `soup`,
not `problem_block`), whereas the solution fallback is scoped to the
container; hence on every page whose first document-order body block lies
outside the main problem container, the returned condition is built from
that outside block. -/
theorem c10_condition_scope (st : ClientState) (ocr : String → String) (pid : Int)
    (doc doc' : NodeList) (c0 pb p : Node) (l : List Int)
    (hc : doc.findFirst (isTagClass "div" "prob_maindiv") = some c0)
    (hr : doc.rewriteContainer (base_url st) = .ok (doc', some pb))
    (hp : doc'.findFirst (isTagClass "div" "pbody") = some p)
    (hout : ∀ x ∈ pb.findAllD (isTagClass "div" "pbody"), x ≠ p)
    (ha : analogsOf pid pb = .ok l) :
    get_problem_by_id st ocr pid false doc =
      .ok { gia_type := st.gia_type, subject := st.subject, problem_id := pid,
            condition := some (problemPartPlain p),
            solution := (solutionTag pb).map problemPartPlain,
            answer := answerOf pb, topic_id := topicIdOf pb, analogs := l } ∧
    (∀ x ∈ pb.findAllD (isTagClass "div" "pbody"), x ≠ p) := by
  refine ⟨?_, hout⟩
  unfold get_problem_by_id
  rw [hc, hr]
  simp [conditionOf_plain, solutionOf_plain, ha, hp, bind, Except.bind]

/-- Claim C10, witness on the concrete page `docOutside`, whose first
body block precedes the container. -/
theorem c10_condition_scope_witness :
    (get_problem_by_id stMath (fun _ => "") 9999 false docOutside =
      .ok { gia_type := stMath.gia_type, subject := stMath.subject, problem_id := 9999,
            condition := some (problemPartPlain outsidePbody),
            solution := (solutionTag containerOutside).map problemPartPlain,
            answer := answerOf containerOutside, topic_id := topicIdOf containerOutside,
            analogs := [50, 100, 100, 777] }) ∧
    (∀ x ∈ containerOutside.findAllD (isTagClass "div" "pbody"), x ≠ outsidePbody) :=
  c10_condition_scope stMath (fun _ => "") 9999 docOutside docOutside containerOutside
    containerOutside outsidePbody [50, 100, 100, 777]
    (by decide) (by decide) (by decide) (by decide) (by decide)
